import Mathlib

/-!
Verification of the `my-rust` teaching snippets.

Three source files are modelled:
* `advanced_traits/src/main.rs` — the trait-method disambiguation example
  (`mod fly` with traits `Pilot` and `Wizard`, struct `Human`, three
  same-named `fly` methods, and a `main` performing four calls);
* `demo/src/lib.rs` — the `demo` function (stack push/pop loop);
* `demo/src/main.rs` — the mapping-lookup `main`.

Console output is modelled as a `List String` of emitted lines.
-/

namespace fly

/-- The zero-field struct `Human` from `mod fly`. -/
structure Human where

/-- `<Human as Pilot>::fly`: prints "This is your captain speaking.". -/
def Pilot.fly (_self : Human) : List String :=
  ["This is your captain speaking."]

/-- `<Human as Wizard>::fly`: prints "Up!". -/
def Wizard.fly (_self : Human) : List String :=
  ["Up!"]

/-- The inherent method `Human::fly`: prints "*waving arms furiously*". -/
def Human.fly (_self : Human) : List String :=
  ["*waving arms furiously*"]

end fly

/-- The two behavior sets (traits) declaring a `fly` method in `mod fly`. -/
inductive TraitName
  | pilot
  | wizard
deriving DecidableEq

/-- Where a candidate `fly` implementation for `Human` comes from: one of the
two trait impl blocks, or the inherent impl block. -/
inductive MethodSource
  | traitImpl (t : TraitName)
  | inherent
deriving DecidableEq

/-- The body of each `fly` implementation for `Human`, as declared in the
source, keyed by its origin. -/
def flyBody : MethodSource → fly.Human → List String
  | .traitImpl .pilot, h => fly.Pilot.fly h
  | .traitImpl .wizard, h => fly.Wizard.fly h
  | .inherent, h => fly.Human.fly h

/-- The complete table of `fly` method candidates declared for `Human` in
`mod fly`: `impl Pilot for Human`, `impl Wizard for Human`, `impl Human`. -/
def humanFlyImpls : List MethodSource :=
  [.traitImpl .pilot, .traitImpl .wizard, .inherent]

def isTraitImpl : MethodSource → Bool
  | .traitImpl _ => true
  | .inherent => false

/-- Resolution of an unqualified member-style call (`value.fly()`): the
inherent method is preferred when one exists; otherwise a lone trait
candidate is chosen, and several trait candidates with no inherent
tie-breaker fail to resolve (a compile-time ambiguity error, `none`). -/
def resolveUnqualified (impls : List MethodSource) : Option MethodSource :=
  if impls.contains .inherent then
    some .inherent
  else
    match impls.filter isTraitImpl with
    | [m] => some m
    | _ => none

/-- The unqualified call `person.fly()` as it resolves against the candidate
table of `Human`. A `none` resolution would be a compile error and never
produces output. -/
def personFly (h : fly.Human) : List String :=
  match resolveUnqualified humanFlyImpls with
  | some m => flyBody m h
  | none => []

/-- The output of `main` in `advanced_traits/src/main.rs`: construct
`person`, then `fly::Pilot::fly(&person)`, `fly::Wizard::fly(&person)`,
`fly::Human::fly(&person)`, `person.fly()`. -/
def main_output : List String :=
  let person : fly.Human := fly.Human.mk
  fly.Pilot.fly person ++ fly.Wizard.fly person
    ++ fly.Human.fly person ++ personFly person

/-- Program state during a sequence of `fly` calls: the subject value and the
lines emitted so far. -/
structure ProgState where
  person : fly.Human
  output : List String

/-- Perform one (qualified) `fly` call: the chosen implementation reads the
subject value and appends its printed line to the output. -/
def callFly (m : MethodSource) (s : ProgState) : ProgState :=
  { person := s.person, output := s.output ++ flyBody m s.person }

/-- Run a sequence of `fly` calls in order. -/
def runCalls (calls : List MethodSource) (s : ProgState) : ProgState :=
  calls.foldl (fun s m => callFly m s) s

/-- The lines a sequence of calls emits when the subject value is `h`. -/
def outputsOf : List MethodSource → fly.Human → List String
  | [], _ => []
  | m :: rest, h => flyBody m h ++ outputsOf rest h

theorem runCalls_cons (m : MethodSource) (rest : List MethodSource)
    (s : ProgState) :
    runCalls (m :: rest) s = runCalls rest (callFly m s) := rfl

theorem callFly_person (m : MethodSource) (s : ProgState) :
    (callFly m s).person = s.person := rfl

theorem runCalls_person (calls : List MethodSource) (s : ProgState) :
    (runCalls calls s).person = s.person := by
  induction calls generalizing s with
  | nil => rfl
  | cons m rest ih =>
    rw [runCalls_cons, ih, callFly_person]

theorem runCalls_output (calls : List MethodSource) (s : ProgState) :
    (runCalls calls s).output = s.output ++ outputsOf calls s.person := by
  induction calls generalizing s with
  | nil => simp [runCalls, outputsOf]
  | cons m rest ih =>
    rw [runCalls_cons, ih, callFly_person]
    simp [callFly, outputsOf]

theorem runCalls_append (l₁ l₂ : List MethodSource) (s : ProgState) :
    runCalls (l₁ ++ l₂) s = runCalls l₂ (runCalls l₁ s) :=
  List.foldl_append _ _ _ _

theorem outputsOf_append (l₁ l₂ : List MethodSource) (h : fly.Human) :
    outputsOf (l₁ ++ l₂) h = outputsOf l₁ h ++ outputsOf l₂ h := by
  induction l₁ with
  | nil => rfl
  | cons m rest ih => simp [outputsOf, ih]

/-- Claim C1: running the dispatch example's `main` emits exactly the four
lines "This is your captain speaking.", "Up!", "*waving arms furiously*",
"*waving arms furiously*", in that order, and nothing else. -/
theorem main_output_exact :
    main_output =
      ["This is your captain speaking.", "Up!",
        "*waving arms furiously*", "*waving arms furiously*"] := by
  rfl

/-- Claim C2: the unqualified call `person.fly()` always produces the
inherent operation's line and never the Pilot or Wizard line. -/
theorem person_fly_is_inherent (h : fly.Human) :
    personFly h = ["*waving arms furiously*"]
      ∧ personFly h ≠ fly.Pilot.fly h
      ∧ personFly h ≠ fly.Wizard.fly h := by
  refine ⟨rfl, ?_, ?_⟩ <;> · intro hc; simp [personFly, resolveUnqualified,
    humanFlyImpls, flyBody, fly.Human.fly, fly.Pilot.fly, fly.Wizard.fly] at hc

/-- Claim C3: the explicit inherent-qualified call `fly::Human::fly(&person)`
and the unqualified `person.fly()` resolve to the same implementation and
produce identical output for every `Human` value. -/
theorem inherent_eq_unqualified :
    resolveUnqualified humanFlyImpls = some .inherent
      ∧ ∀ h : fly.Human, fly.Human.fly h = personFly h :=
  ⟨rfl, fun _ => rfl⟩

/-- Claim C4: a Pilot-qualified call contributes exactly behavior set A's
line to the output, regardless of the calls before or after it. -/
theorem pilot_call_independent_of_order
    (pre post : List MethodSource) (s : ProgState) :
    (runCalls (pre ++ MethodSource.traitImpl .pilot :: post) s).output
      = s.output ++ outputsOf pre s.person
          ++ ["This is your captain speaking."]
          ++ outputsOf post s.person := by
  have h₁ : pre ++ MethodSource.traitImpl .pilot :: post
      = (pre ++ [MethodSource.traitImpl .pilot]) ++ post := by simp
  rw [h₁, runCalls_output, outputsOf_append, outputsOf_append]
  simp [outputsOf, flyBody, fly.Pilot.fly]

theorem wizard_last_emits (l : List MethodSource) (s : ProgState) :
    ((runCalls (l ++ [MethodSource.traitImpl .wizard]) s).output).drop
      (runCalls l s).output.length = ["Up!"] := by
  rw [runCalls_output, runCalls_output, outputsOf_append, ← List.append_assoc]
  have h₂ : outputsOf [MethodSource.traitImpl .wizard] s.person
      = ["Up!"] := rfl
  rw [h₂]
  exact List.drop_left _ _

/-- Claim C5: a Wizard-qualified call always emits behavior set B's line, and
the line it emits is the same whether or not a Pilot-qualified call was made
just before it. -/
theorem wizard_call_unaffected_by_pilot
    (pre : List MethodSource) (s : ProgState) :
    ((runCalls (pre ++ [MethodSource.traitImpl .wizard]) s).output).drop
        (runCalls pre s).output.length = ["Up!"]
      ∧ ((runCalls ((pre ++ [MethodSource.traitImpl .pilot])
            ++ [MethodSource.traitImpl .wizard]) s).output).drop
          (runCalls (pre ++ [MethodSource.traitImpl .pilot]) s).output.length
        = ["Up!"] :=
  ⟨wizard_last_emits pre s,
    wizard_last_emits (pre ++ [MethodSource.traitImpl .pilot]) s⟩

/-- Claim C6: every single qualified `fly` call is idempotent in its
observable effect: calling it twice in succession emits the identical line
twice, and the subject value is unchanged by both calls. -/
theorem qualified_call_idempotent (m : MethodSource) (s : ProgState) :
    (callFly m (callFly m s)).output.drop (callFly m s).output.length
        = (callFly m s).output.drop s.output.length
      ∧ (callFly m (callFly m s)).person = s.person := by
  refine ⟨?_, rfl⟩
  simp [callFly]

/-- Claim C7: dispatch has no runtime error conditions: every valid qualifier
resolves to exactly one implementation in the candidate table, and every
implementation totally emits exactly one line (no return value, no panic). -/
theorem dispatch_total_one_impl (m : MethodSource) (h : fly.Human) :
    (humanFlyImpls.filter (fun x => x == m)).length = 1
      ∧ (flyBody m h).length = 1 := by
  rcases m with t | _
  · rcases t with _ | _ <;> exact ⟨rfl, rfl⟩
  · exact ⟨rfl, rfl⟩

/-- Claim C8: all three `fly` implementations are simultaneously available on
the one `Human` value, no call mutates the subject value, and the `Human`
value carries no data (all `Human` values are equal). -/
theorem three_impls_available_value_immutable :
    (∀ m : MethodSource, m ∈ humanFlyImpls)
      ∧ (∀ (m : MethodSource) (s : ProgState), (callFly m s).person = s.person)
      ∧ (∀ h₁ h₂ : fly.Human, h₁ = h₂) := by
  refine ⟨?_, fun _ _ => rfl, fun _ _ => rfl⟩
  intro m
  rcases m with t | _
  · rcases t with _ | _ <;> simp [humanFlyImpls]
  · simp [humanFlyImpls]

/-- `Vec::push` with the top of the stack at the end of the list. -/
def vecPush (v : List Int) (x : Int) : List Int := v ++ [x]

/-- `Vec::pop`: removes and returns the last element, or `none` when empty. -/
def vecPop (v : List Int) : Option Int × List Int :=
  match v.getLast? with
  | some x => (some x, v.dropLast)
  | none => (none, v)

/-- The `while let Some(top) = stack.pop()` loop of `demo`, run with enough
fuel; each iteration prints the popped value. Returns the final stack and
the printed lines. -/
def popPrintLoopAux : Nat → List Int → List Int × List String
  | 0, v => (v, [])
  | Nat.succ n, v =>
    match vecPop v with
    | (some top, rest) =>
      let p := popPrintLoopAux n rest
      (p.1, toString top :: p.2)
    | (none, _) => (v, [])

/-- The pop-print loop of `demo`: every pop shrinks the stack by one, so
`v.length` rounds of fuel always reach the empty-stack exit. -/
def popPrintLoop (v : List Int) : List Int × List String :=
  popPrintLoopAux v.length v

/-- The `demo` function of `demo/src/lib.rs` up to its print loop: push 1, 2,
3 onto an empty stack, then pop-and-print until empty. (The trailing
`matcher` code prints nothing; see `demo_matcher`.) -/
def demo_run : List Int × List String :=
  let stack : List Int := []
  let stack := vecPush stack 1
  let stack := vecPush stack 2
  let stack := vecPush stack 3
  popPrintLoop stack

/-- The `matcher` match expression at the end of `demo`: its value is
discarded and it emits no output. -/
def demo_matcher : String :=
  let matcher : Option String := some "none"
  match matcher with
  | some s => s
  | none => "none"

/-- Claim C9: after pushing 1, 2, 3 onto an empty stack, the while-let pop
loop of `demo` prints exactly "3", "2", "1" in that order (last-in
first-out), terminates, and leaves the stack empty. -/
theorem demo_pops_lifo :
    demo_run = ([], ["3", "2", "1"]) := by
  rfl

/-- The map of `demo/src/main.rs` after `map.insert("start", "value")` on an
empty map, as an association list. -/
def mainMap : List (String × String) := [("start", "value")]

/-- `HashMap::get` on the association-list model. -/
def mapGet (m : List (String × String)) (k : String) : Option String :=
  (m.find? (fun p => p.1 == k)).map (fun p => p.2)

/-- `HashMap::keys` on the association-list model (iteration order is
unspecified for a `HashMap`, but this map has a single key). -/
def mapKeys (m : List (String × String)) : List String :=
  m.map (fun p => p.1)

/-- A runtime panic of the lookup `main`: the `unreachable!()` arm, or
`Option::unwrap` on `None`. -/
inductive RtPanic
  | unreachableReached
  | unwrapOnNone
deriving DecidableEq

/-- The local variables of the lookup `main`. `start` is initialised to
"Unknown"; `repeatVal`, `remaining` and `message` are declared without an
initial value (modelled as `none`) and are never read. -/
structure LookupState where
  start : String
  repeatVal : Option String
  remaining : Option String
  message : Option String

/-- One iteration of the `for key in map.keys()` loop: match on the key
string, assign the corresponding variable from `map.get(key).unwrap()`, and
panic on any other key via `unreachable!()`. -/
def processKey (m : List (String × String)) (s : LookupState)
    (key : String) : Except RtPanic LookupState :=
  match key with
  | "start" =>
    match mapGet m key with
    | some v => .ok { s with start := v }
    | none => .error .unwrapOnNone
  | "repeat" =>
    match mapGet m key with
    | some v => .ok { s with repeatVal := some v }
    | none => .error .unwrapOnNone
  | "remaining" =>
    match mapGet m key with
    | some v => .ok { s with remaining := some v }
    | none => .error .unwrapOnNone
  | "message" =>
    match mapGet m key with
    | some v => .ok { s with message := some v }
    | none => .error .unwrapOnNone
  | _ => .error .unreachableReached

/-- The initial state of the lookup `main`: `start` is "Unknown", the other
three locals are uninitialised. -/
def initState : LookupState :=
  { start := "Unknown", repeatVal := none, remaining := none,
    message := none }

/-- The lookup `main` of `demo/src/main.rs`: build the map, run the key loop,
then print the result line. A `.error` value marks a runtime panic. -/
def lookupMain : Except RtPanic (List String) := do
  let s ← (mapKeys mainMap).foldlM (processKey mainMap) initState
  pure ["Result: " ++ s.start]

/-- Claim C10: the map holds only the key "start", so the loop runs exactly
once, binds `start` to "value", never reaches the `unreachable!()` arm, and
the program prints exactly "Result: value" without panicking. -/
theorem lookup_main_no_panic :
    mapKeys mainMap = ["start"]
      ∧ (mapKeys mainMap).foldlM (processKey mainMap) initState
        = Except.ok
            { initState with start := "value" }
      ∧ lookupMain = .ok ["Result: value"] := by
  exact ⟨rfl, rfl, rfl⟩
